import Mathlib

/-!
Verification of the stock-analysis job-orchestration core.

Shallow embedding of the queue/worker pipeline of the repository:
`src/lib/queue/errorHandling.ts`, `src/lib/queue/jobStatus.ts`,
`src/lib/queue/types.ts`, the five stage workers, and the SSE update
stream route.  Effectful TypeScript functions are embedded as pure
functions from their inputs (and the relevant slice of persisted state)
to an explicit record of the effects they perform.
-/

namespace StockApp

/-! ## Strings: JS `String.includes` as substring containment on char lists -/

/-- Is `p` a contiguous sublist of the given list?  Mirrors JS
`String.prototype.includes` on the underlying character sequence. -/
def subListAt (p : List Char) : List Char → Bool
  | [] => p.isEmpty
  | c :: rest => p.isPrefixOf (c :: rest) || subListAt p rest

/-- JS `s.includes(pat)`. -/
def strIncludes (s pat : String) : Bool := subListAt pat.data s.data

/-- JS `s.toLowerCase()` (ASCII, as in the patterns the classifier
tests): lowercase every character. -/
def strToLower (s : String) : String := String.mk (s.data.map Char.toLower)

/-! ## types.ts -/

/-- `ErrorType` enum from `src/lib/queue/types.ts`. -/
inductive ErrorType
  | RATE_LIMIT
  | API_ERROR
  | NETWORK_ERROR
  | VALIDATION_ERROR
  | JUDGE_REJECTION
  | UNKNOWN
deriving DecidableEq

/-- `JobError` record from `src/lib/queue/types.ts`; `retryDelay` is the
optional delay in milliseconds. -/
structure JobError where
  type : ErrorType
  message : String
  retryable : Bool
  retryDelay : Option Nat
deriving DecidableEq

/-- `JobStatusType` from `src/lib/queue/types.ts`. -/
inductive JobStatusType
  | waiting
  | active
  | completed
  | failed
deriving DecidableEq

/-! ## errorHandling.ts: classifyError -/

/-- The rate-limit condition of `classifyError` (errorHandling.ts lines 11-15). -/
def rateLimitSignal (es : String) : Bool :=
  strIncludes es "rate limit" || strIncludes es "429" || strIncludes es "too many requests"

/-- The validation condition of `classifyError` (lines 26-28). -/
def validationSignal (es : String) : Bool :=
  strIncludes es "400" || strIncludes es "bad request" || strIncludes es "invalid"

/-- The auth/API condition of `classifyError` (lines 38-40). -/
def apiSignal (es : String) : Bool :=
  strIncludes es "401" || strIncludes es "403" || strIncludes es "unauthorized"

/-- The network condition of `classifyError` (lines 51-54). -/
def networkSignal (es : String) : Bool :=
  strIncludes es "network" || strIncludes es "timeout" ||
    strIncludes es "econnrefused" || strIncludes es "enotfound"

/-- The judge-rejection condition of `classifyError` (line 65). -/
def judgeSignal (es : String) : Bool :=
  strIncludes es "judge reject"

/-- `classifyError` from errorHandling.ts.  The failure is represented by its
message string (`errorMessage`); the source lowercases it and tests the
patterns in order. -/
def classifyError (errorMessage : String) : JobError :=
  let errorString := strToLower errorMessage
  if rateLimitSignal errorString then
    { type := .RATE_LIMIT, message := errorMessage, retryable := true, retryDelay := some 60000 }
  else if validationSignal errorString then
    { type := .VALIDATION_ERROR, message := errorMessage, retryable := false, retryDelay := none }
  else if apiSignal errorString then
    { type := .API_ERROR, message := errorMessage, retryable := false, retryDelay := none }
  else if networkSignal errorString then
    { type := .NETWORK_ERROR, message := errorMessage, retryable := true, retryDelay := some 10000 }
  else if judgeSignal errorString then
    { type := .JUDGE_REJECTION, message := errorMessage, retryable := true, retryDelay := some 5000 }
  else
    { type := .UNKNOWN, message := errorMessage, retryable := true, retryDelay := some 5000 }

/-- `shouldRetry` from errorHandling.ts (lines 86-102). -/
def shouldRetry (e : JobError) (attemptNumber : Nat) (maxAttempts : Nat) : Bool :=
  if !e.retryable then false
  else if attemptNumber ≥ maxAttempts then false
  else true

/-- `calculateRetryDelay` from errorHandling.ts (lines 107-117).
`initialDelay = error.retryDelay || baseDelay` (JS `||`: a present but zero
delay is falsy and falls back to `baseDelay`). -/
def calculateRetryDelay (e : JobError) (attemptNumber : Nat) (baseDelay : Nat) : Nat :=
  let initialDelay :=
    match e.retryDelay with
    | some d => if d = 0 then baseDelay else d
    | none => baseDelay
  initialDelay * 2 ^ (attemptNumber - 1)

/-! ## errorHandling.ts: withRetry

The wrapped async function is embedded as `fn : Nat → Except String α`,
giving the outcome of its `attempt`-th invocation (1-indexed).  The loop
`for attempt in 1..maxAttempts` is embedded by recursion on the number of
remaining loop iterations; the second component counts how many times
`fn` was invoked. -/

/-- One unrolling of the `withRetry` loop: `remaining` iterations left,
current attempt number `attempt`. -/
def withRetryFrom {α : Type} (fn : Nat → Except String α) (maxAttempts : Nat) :
    Nat → Nat → Except String α × Nat
  | 0, _ => (.error "Unknown error after retries", 0)
  | r + 1, attempt =>
    match fn attempt with
    | .ok v => (.ok v, 1)
    | .error e =>
      if shouldRetry (classifyError e) attempt maxAttempts then
        let rest := withRetryFrom fn maxAttempts r (attempt + 1)
        (rest.1, rest.2 + 1)
      else
        (.error e, 1)

/-- `withRetry` from errorHandling.ts (lines 170-212): result together with
the number of invocations of the wrapped function. -/
def withRetry {α : Type} (fn : Nat → Except String α) (maxAttempts : Nat) :
    Except String α × Nat :=
  withRetryFrom fn maxAttempts maxAttempts 1

/-! ## jobStatus.ts: the Job Status Tracker

A `JobStatus` database row, keyed by `jobId`.  `prisma.jobStatus.update`
performs a partial (per-field last-write-wins) update of the addressed
row; the store is embedded as a partial map from job id to record. -/

/-- One `JobStatus` row (timestamps omitted). -/
structure JobRecord where
  jobType : String
  relatedId : String
  status : JobStatusType
  progress : Int
  errorMessage : Option String
deriving DecidableEq

/-- The optional-field update record accepted by `updateJobStatus`. -/
structure JobUpdateData where
  status : Option JobStatusType
  progress : Option Int
  errorMessage : Option String
deriving DecidableEq

/-- The `JobStatus` table: job id to row. -/
def JobStore : Type := String → Option JobRecord

/-- Partial-update of one row: fields present in `d` overwrite, the rest
are kept (`prisma.jobStatus.update` semantics). -/
def applyJobUpdate (r : JobRecord) (d : JobUpdateData) : JobRecord :=
  { r with
    status := d.status.getD r.status
    progress := d.progress.getD r.progress
    errorMessage := match d.errorMessage with
      | some m => some m
      | none => r.errorMessage }

/-- `updateJobStatus` from jobStatus.ts (lines 26-41). -/
def updateJobStatus (s : JobStore) (jobId : String) (d : JobUpdateData) : JobStore :=
  fun k => if k = jobId then (s jobId).map (applyJobUpdate · d) else s k

/-- `markJobActive` from jobStatus.ts. -/
def markJobActive (s : JobStore) (jobId : String) (progress : Int) : JobStore :=
  updateJobStatus s jobId { status := some .active, progress := some progress, errorMessage := none }

/-- `updateJobProgress` from jobStatus.ts (lines 56-60): clamps with
`Math.min(100, Math.max(0, progress))`, touching no other field. -/
def updateJobProgress (s : JobStore) (jobId : String) (progress : Int) : JobStore :=
  updateJobStatus s jobId
    { status := none, progress := some (min 100 (max 0 progress)), errorMessage := none }

/-- `markJobCompleted` from jobStatus.ts (lines 65-70). -/
def markJobCompleted (s : JobStore) (jobId : String) : JobStore :=
  updateJobStatus s jobId { status := some .completed, progress := some 100, errorMessage := none }

/-- `markJobFailed` from jobStatus.ts (lines 75-80). -/
def markJobFailed (s : JobStore) (jobId : String) (errorMessage : String) : JobStore :=
  updateJobStatus s jobId
    { status := some .failed, progress := none, errorMessage := some errorMessage }

/-! ## Job payload contracts (types.ts) -/

/-- `StockAnalysisJobData` from types.ts. -/
structure StockAnalysisJobData where
  stockId : String
  stockAnalysisId : String
  companyName : String
  ticker : Option String
  subSectorName : String
  attemptNumber : Nat
deriving DecidableEq

/-- `JudgeReviewJobData` from types.ts. -/
structure JudgeReviewJobData where
  stockAnalysisId : String
  stockId : String
  rawAnalysis : String
  companyName : String
  attemptNumber : Nat
deriving DecidableEq

/-- `FormatInsightsJobData` from types.ts. -/
structure FormatInsightsJobData where
  stockAnalysisId : String
  rawAnalysis : String
  judgeReview : String
  companyName : String
deriving DecidableEq

/-- One entry of `StockRankingJobData.stocks` from types.ts. -/
structure RankingStockInput where
  id : String
  companyName : String
  ticker : Option String
  preliminaryNotes : String
deriving DecidableEq

/-- `StockRankingJobData` from types.ts. -/
structure StockRankingJobData where
  subSectorId : String
  stocks : List RankingStockInput
deriving DecidableEq

/-- StockAnalysis lifecycle status (prisma schema / spec section 3). -/
inductive SAStatus
  | pending
  | analyzing
  | review_failed
  | completed
deriving DecidableEq

/-! ## Worker effect records

A queue `add` call is recorded with its payload and options
(`jobId`, `delay`, `priority`). -/

/-- A `stockAnalysisQueue.add` call. -/
structure AnalysisJobAdd where
  jobId : String
  delay : Option Nat
  priority : Option Nat
  data : StockAnalysisJobData
deriving DecidableEq

/-- A `judgeReviewQueue.add` call. -/
structure JudgeJobAdd where
  jobId : String
  data : JudgeReviewJobData
deriving DecidableEq

/-- A `formatInsightsQueue.add` call. -/
structure FormatJobAdd where
  jobId : String
  data : FormatInsightsJobData
deriving DecidableEq

/-! ## stockAnalysisWorker.ts -/

/-- The mock report text produced by `processStockAnalysis` (the long
bullet-list body of the template literal is abbreviated; no claim depends
on it). -/
def mockRawAnalysis (companyName : String) (ticker : Option String) (attemptNumber : Nat) : String :=
  "\nDeep Analysis of " ++ companyName ++ " (" ++ ticker.getD "N/A" ++ ")\nAttempt: "
    ++ toString attemptNumber ++ "\n\nThis is a placeholder for the AI-generated deep stock analysis.\n"

/-- Effects of the success path of `processStockAnalysis`. -/
structure AnalysisEffects where
  /-- First `stockAnalysis.update`: status set to `analyzing`. -/
  statusSet : SAStatus
  /-- First `stockAnalysis.update`: `attemptCount := attemptNumber`. -/
  attemptCountSet : Nat
  /-- Second `stockAnalysis.update`: the raw analysis text. -/
  rawAnalysisSaved : String
  /-- The single `judgeReviewQueue.add` call. -/
  judgeJob : JudgeJobAdd
  /-- Final state of the worker's own `JobStatus` row. -/
  ownJobStatus : JobStatusType
deriving DecidableEq

/-- `processStockAnalysis` from stockAnalysisWorker.ts (success path;
the catch path, which sets the StockAnalysis to `review_failed`, is a
separate transition of the pipeline state machine below). -/
def processStockAnalysis (d : StockAnalysisJobData) : AnalysisEffects :=
  let raw := mockRawAnalysis d.companyName d.ticker d.attemptNumber
  { statusSet := .analyzing
    attemptCountSet := d.attemptNumber
    rawAnalysisSaved := raw
    judgeJob :=
      { jobId := "judge-" ++ d.stockAnalysisId ++ "-" ++ toString d.attemptNumber
        data :=
          { stockAnalysisId := d.stockAnalysisId
            stockId := d.stockId
            rawAnalysis := raw
            companyName := d.companyName
            attemptNumber := d.attemptNumber } }
    ownJobStatus := .completed }

/-! ## judgeReviewWorker.ts (src/unnamed/part_003) -/

/-- `MAX_RETRY_ATTEMPTS` from judgeReviewWorker.ts. -/
def MAX_RETRY_ATTEMPTS : Nat := 3

/-- The mock verdict text of `processJudgeReview` (`mockJudgeReview`). -/
def mockJudgeReview (approved : Bool) (companyName : String) : String :=
  if approved then
    "APPROVED: The analysis for " ++ companyName ++ " is comprehensive and well-researched."
  else
    "REJECTED: The analysis for " ++ companyName ++
      " lacks depth in financial analysis. Please retry with more focus on valuation metrics."

/-- Effects of the success path of `processJudgeReview`. -/
structure JudgeEffects where
  /-- `stockAnalysis.update`: the saved `judgeReview` text. -/
  judgeReviewSaved : String
  /-- `formatInsightsQueue.add` calls. -/
  formatJobs : List FormatJobAdd
  /-- `stockAnalysisQueue.add` calls (the retry path). -/
  retryJobs : List AnalysisJobAdd
  /-- A further `stockAnalysis.update` setting `(status, failureReason)`,
  when performed. -/
  saStatusSet : Option (SAStatus × String)
  /-- Final state of the worker's own `JobStatus` row. -/
  ownJobStatus : JobStatusType
deriving DecidableEq

/-- `processJudgeReview` from judgeReviewWorker.ts (success path).  The
verdict of the judge AI call is the `approved` input (the source draws it
from `Math.random()`); everything downstream of the verdict is embedded
verbatim, including the retry payload reconstruction at lines 99-113. -/
def processJudgeReview (d : JudgeReviewJobData) (approved : Bool) : JudgeEffects :=
  let review := mockJudgeReview approved d.companyName
  if approved then
    { judgeReviewSaved := review
      formatJobs :=
        [{ jobId := "format-" ++ d.stockAnalysisId
           data :=
             { stockAnalysisId := d.stockAnalysisId
               rawAnalysis := d.rawAnalysis
               judgeReview := review
               companyName := d.companyName } }]
      retryJobs := []
      saStatusSet := none
      ownJobStatus := .completed }
  else if d.attemptNumber < MAX_RETRY_ATTEMPTS then
    { judgeReviewSaved := review
      formatJobs := []
      retryJobs :=
        [{ jobId := "stock-" ++ d.stockAnalysisId ++ "-attempt-" ++ toString (d.attemptNumber + 1)
           delay := some 5000
           priority := none
           data :=
             { stockId := d.stockId
               stockAnalysisId := d.stockAnalysisId
               companyName := d.companyName
               ticker := some d.companyName
               subSectorName := "Unknown"
               attemptNumber := d.attemptNumber + 1 } }]
      saStatusSet := none
      ownJobStatus := .completed }
  else
    { judgeReviewSaved := review
      formatJobs := []
      retryJobs := []
      saStatusSet := some (.review_failed,
        "Judge rejected after " ++ toString MAX_RETRY_ATTEMPTS ++ " attempts: " ++ review)
      ownJobStatus := .completed }

/-! ## stockRankingWorker.ts -/

/-- Effects of the success path of `processStockRanking`.  The database
ids of the freshly created `StockAnalysis` rows are an input
(`analysisIds`), as they are generated by the store. -/
structure RankingEffects where
  /-- `stock.update` rank assignments `(stockId, rank)`, rank = index + 1. -/
  rankUpdates : List (String × Nat)
  /-- `stockAnalysis.create` targets: `(stockId, attemptCount)`. -/
  createdAnalyses : List (String × Nat)
  /-- `stockAnalysisQueue.add` calls for the top-5 stocks. -/
  analysisJobs : List AnalysisJobAdd
  /-- Final state of the worker's own `JobStatus` row. -/
  ownJobStatus : JobStatusType
deriving DecidableEq

/-- `processStockRanking` from stockRankingWorker.ts (success path).
Mock ranking assigns ranks sequentially (index + 1); analysis records and
jobs are created for the first five ranked stocks, each job carrying
priority equal to the stock's rank. -/
def processStockRanking (d : StockRankingJobData) (analysisIds : List String)
    (subSectorName : Option String) : RankingEffects :=
  let rankedStocks := d.stocks.enum.map (fun p => (p.2, p.1 + 1))
  let top5Stocks := rankedStocks.take 5
  { rankUpdates := rankedStocks.map (fun p => (p.1.id, p.2))
    createdAnalyses := top5Stocks.map (fun p => (p.1.id, 1))
    analysisJobs :=
      (top5Stocks.zip analysisIds).map (fun p =>
        { jobId := "stock-" ++ p.2 ++ "-attempt-1"
          delay := none
          priority := some p.1.2
          data :=
            { stockId := p.1.1.id
              stockAnalysisId := p.2
              companyName := p.1.1.companyName
              ticker := p.1.1.ticker
              subSectorName := subSectorName.getD "Unknown"
              attemptNumber := 1 } })
    ownJobStatus := .completed }

/-! ## formatInsightsWorker.ts: the completion cascade -/

/-- A `StockAnalysis` row as seen by the cascade check. -/
structure SARec where
  id : String
  status : SAStatus
deriving DecidableEq

/-- A `Stock` row with its optional one-to-one `deepAnalysis`. -/
structure StockRec where
  id : String
  rank : Int
  deepAnalysis : Option SARec
deriving DecidableEq

/-- SubSector lifecycle status (prisma schema / spec section 3). -/
inductive SubStatus
  | pending
  | approved
  | analyzing
  | completed
deriving DecidableEq

/-- A `SubSector` row with its stocks. -/
structure SubSectorRec where
  id : String
  name : String
  status : SubStatus
  stocks : List StockRec
deriving DecidableEq

/-- `stock.deepAnalysis?.status === 'completed'` (formatInsightsWorker.ts
line 121): a stock with no analysis row fails the check. -/
def analysisCompleted (s : StockRec) : Bool :=
  match s.deepAnalysis with
  | some a => a.status = .completed
  | none => false

/-- The cascade condition of `processFormatInsights` (lines 116-122):
`topStocks = stocks.filter(s => s.rank <= 5)` and
`allCompleted = topStocks.every(stock => stock.deepAnalysis?.status === 'completed')`.
The source also sorts `topStocks` by rank before `every`; `every` is
order-insensitive, so the sort is omitted. -/
def cascadeAllCompleted (stocks : List StockRec) : Bool :=
  (stocks.filter (fun s => s.rank ≤ 5)).all analysisCompleted

/-- The first `stockAnalysis.update` of `processFormatInsights`
(lines 82-88): the target analysis row is set to `completed`. -/
def setAnalysisCompleted (stocks : List StockRec) (targetId : String) : List StockRec :=
  stocks.map (fun s =>
    match s.deepAnalysis with
    | some a =>
      if a.id = targetId then { s with deepAnalysis := some { a with status := .completed } }
      else s
    | none => s)

/-- `processFormatInsights` from formatInsightsWorker.ts (success path),
restricted to its persistent effects on the sub-sector owning the target
analysis: marks the target `StockAnalysis` completed, then re-reads the
sub-sector and marks it completed when `cascadeAllCompleted` holds.
Returns the updated sub-sector and whether the completion write was
issued. -/
def processFormatInsights (sub : SubSectorRec) (targetId : String) : SubSectorRec × Bool :=
  let stocksNow := setAnalysisCompleted sub.stocks targetId
  let marked := cascadeAllCompleted stocksNow
  ({ sub with
      stocks := stocksNow
      status := if marked then .completed else sub.status },
   marked)

/-- Modelled from the spec (section 3, Invariants): a SubSector's derived
top 5 is its 5 lowest-rank stocks among those with rank ≥ 1, or all
ranked stocks when fewer than 5 exist.  Insertion sort by rank, then
`take 5`. -/
def insertByRank (s : StockRec) : List StockRec → List StockRec
  | [] => [s]
  | t :: ts => if s.rank ≤ t.rank then s :: t :: ts else t :: insertByRank s ts

/-- Modelled from the spec: sort stocks by ascending rank. -/
def sortByRank : List StockRec → List StockRec :=
  List.foldr insertByRank []

/-- Modelled from the spec: the derived top-5 of a stock list. -/
def specTopFive (stocks : List StockRec) : List StockRec :=
  (sortByRank (stocks.filter (fun s => 1 ≤ s.rank))).take 5

/-- Modelled from the spec: every top-5 stock has a completed analysis. -/
def specTopFiveCompleted (stocks : List StockRec) : Bool :=
  (specTopFive stocks).all analysisCompleted

/-! ## The SSE update stream (app/api/analysis/[id]/stream/route.ts) -/

/-- The `lastJobStates` map of the poll loop: job id to the last
`(status, progress)` pair sent. -/
def StateMap : Type := String → Option (JobStatusType × Int)

/-- A `JobStatus` row as read by the poll query. -/
structure JobRow where
  jobId : String
  jobType : String
  relatedId : String
  status : JobStatusType
  progress : Int
  errorMessage : Option String
deriving DecidableEq

/-- The events written to the SSE channel. -/
inductive SseEvent
  | progress (jobType jobId relatedId : String) (status : JobStatusType)
      (p : Int) (errorMessage : Option String)
  | complete (jobType jobId relatedId : String) (status : JobStatusType)
  | error (jobType jobId relatedId : String) (status : JobStatusType)
      (errorMessage : Option String)
deriving DecidableEq

/-- The `(status, progress)` pair of a row (`currentState` in the source). -/
def pairOf (row : JobRow) : JobStatusType × Int := (row.status, row.progress)

/-- The job id an event is about. -/
def eventJobId : SseEvent → String
  | .progress _ j _ _ _ _ => j
  | .complete _ j _ _ => j
  | .error _ j _ _ _ => j

/-- The events emitted for one changed row (route.ts lines 102-134):
a `progress` event, then a terminal `complete` or `error` event when the
row's status is `completed` or `failed`. -/
def rowEvents (row : JobRow) : List SseEvent :=
  [.progress row.jobType row.jobId row.relatedId row.status row.progress row.errorMessage]
    ++ (if row.status = .completed then
          [.complete row.jobType row.jobId row.relatedId row.status] else [])
    ++ (if row.status = .failed then
          [.error row.jobType row.jobId row.relatedId row.status row.errorMessage] else [])

/-- One iteration of the `for (const job of relatedJobs)` body
(route.ts lines 92-136): emit `rowEvents` and record the pair exactly
when the stored pair for the job id differs from the observed one. -/
def processRow (m : StateMap) (row : JobRow) : List SseEvent × StateMap :=
  if m row.jobId = some (pairOf row) then ([], m)
  else (rowEvents row, fun k => if k = row.jobId then some (pairOf row) else m k)

/-- One 2-second poll tick over the fetched rows, in order. -/
def pollStep (m : StateMap) : List JobRow → List SseEvent × StateMap
  | [] => ([], m)
  | row :: rest =>
    ((processRow m row).1 ++ (pollStep (processRow m row).2 rest).1,
     (pollStep (processRow m row).2 rest).2)

/-! ## The per-StockAnalysis pipeline state machine

State of one `StockAnalysis` record together with the outstanding queue
jobs of its retry chain.  All entry points (the ranking worker, the
approval route and the reanalyze route) create the record with
`attemptCount = 1`, status `pending`, and enqueue one stock-analysis job
with `attemptNumber = 1`; the only later writes to `attemptCount` and to
`status` are those of the stock-analysis, judge-review and
format-insights workers, embedded above. -/

/-- State of one StockAnalysis pipeline instance. -/
structure PipeState where
  attemptCount : Nat
  saStatus : SAStatus
  /-- Set exactly by the max-retries branch of the judge worker. -/
  failedViaJudge : Bool
  /-- `attemptNumber` of the outstanding stock-analysis job, if any. -/
  pendingAnalysis : Option Nat
  /-- `attemptNumber` of the outstanding judge-review job, if any. -/
  pendingJudge : Option Nat
  /-- Whether a format-insights job is outstanding. -/
  pendingFormat : Bool
deriving DecidableEq

/-- The creation state: `attemptCount 1`, status `pending`, one
stock-analysis job with `attemptNumber 1` enqueued. -/
def initState : PipeState :=
  { attemptCount := 1
    saStatus := .pending
    failedViaJudge := false
    pendingAnalysis := some 1
    pendingJudge := none
    pendingFormat := false }

/-- Interpretation of `AnalysisEffects` on the pipeline state: the worker
sets status `analyzing` and `attemptCount := attemptNumber`, consumes the
analysis job and enqueues the judge job it built. -/
def applyAnalysisEffects (st : PipeState) (eff : AnalysisEffects) : PipeState :=
  { st with
    attemptCount := eff.attemptCountSet
    saStatus := eff.statusSet
    pendingAnalysis := none
    pendingJudge := some eff.judgeJob.data.attemptNumber }

/-- Interpretation of `JudgeEffects` on the pipeline state: the judge job
is consumed; an enqueued retry job becomes the new pending analysis
attempt; an enqueued format job becomes pending; a `review_failed` status
write lands on the record and raises the judge-failure flag. -/
def applyJudgeEffects (st : PipeState) (eff : JudgeEffects) : PipeState :=
  { st with
    pendingJudge := none
    pendingAnalysis := eff.retryJobs.head?.map (fun j => j.data.attemptNumber)
    pendingFormat := st.pendingFormat || !eff.formatJobs.isEmpty
    saStatus :=
      match eff.saStatusSet with
      | some p => p.1
      | none => st.saStatus
    failedViaJudge :=
      st.failedViaJudge ||
        (match eff.saStatusSet with
         | some (.review_failed, _) => true
         | _ => false) }

/-- One transition of the pipeline: running one outstanding worker. -/
inductive Step : PipeState → PipeState → Prop
  /-- The stock-analysis worker runs its success path on the pending job. -/
  | analysisRun (st : PipeState) (d : StockAnalysisJobData)
      (h : st.pendingAnalysis = some d.attemptNumber) :
      Step st (applyAnalysisEffects st (processStockAnalysis d))
  /-- The stock-analysis worker fails before its first record update
  (catch path): the record is set `review_failed`, `attemptCount`
  untouched. -/
  | analysisFailEarly (st : PipeState) (n : Nat)
      (h : st.pendingAnalysis = some n) :
      Step st { st with saStatus := .review_failed, pendingAnalysis := none }
  /-- The stock-analysis worker fails after setting
  `attemptCount := attemptNumber` (catch path). -/
  | analysisFailLate (st : PipeState) (n : Nat)
      (h : st.pendingAnalysis = some n) :
      Step st { st with attemptCount := n, saStatus := .review_failed, pendingAnalysis := none }
  /-- The judge worker runs its success path on the pending judge job. -/
  | judgeRun (st : PipeState) (d : JudgeReviewJobData) (approved : Bool)
      (h : st.pendingJudge = some d.attemptNumber) :
      Step st (applyJudgeEffects st (processJudgeReview d approved))
  /-- The format-insights worker marks the record completed. -/
  | formatRun (st : PipeState) (h : st.pendingFormat = true) :
      Step st { st with saStatus := .completed, pendingFormat := false }
  /-- The format-insights worker's catch path sets `review_failed`. -/
  | formatFail (st : PipeState) (h : st.pendingFormat = true) :
      Step st { st with saStatus := .review_failed, pendingFormat := false }

/-- States reachable from the creation state. -/
inductive Reachable : PipeState → Prop
  | init : Reachable initState
  | step {s t : PipeState} : Reachable s → Step s t → Reachable t

/-- The inductive invariant of the pipeline state machine: the attempt
counter stays in `[1, 3]`, outstanding job attempt numbers stay in
`[1, 3]`, an outstanding judge job's attempt number agrees with the
record's counter, and once the judge-failure flag is set the counter is
exactly 3 and the chain is quiescent. -/
def PipeInv (st : PipeState) : Prop :=
  st.attemptCount ≤ 3
  ∧ 1 ≤ st.attemptCount
  ∧ (∀ n, st.pendingAnalysis = some n → 1 ≤ n ∧ n ≤ 3)
  ∧ (∀ n, st.pendingJudge = some n → n = st.attemptCount)
  ∧ (st.failedViaJudge = true →
      st.attemptCount = 3 ∧ st.pendingAnalysis = none ∧ st.pendingJudge = none)
  ∧ (st.pendingAnalysis = none ∨ st.pendingJudge = none)

/-! ## Spec-side table and concrete fixtures -/

/-- Modelled from the spec (section 4.1 table): retryability and base
delay per error kind. -/
def specPolicy : ErrorType → Bool × Option Nat
  | .RATE_LIMIT => (true, some 60000)
  | .VALIDATION_ERROR => (false, none)
  | .API_ERROR => (false, none)
  | .NETWORK_ERROR => (true, some 10000)
  | .JUDGE_REJECTION => (true, some 5000)
  | .UNKNOWN => (true, some 5000)

/-- A `JobError` with no error-specific delay. -/
def plainUnknownError : JobError :=
  { type := .UNKNOWN, message := "", retryable := true, retryDelay := none }

/-- A sample `JobStatus` row. -/
def exRecord : JobRecord :=
  { jobType := "stock_analysis", relatedId := "stock-1", status := .active,
    progress := 40, errorMessage := none }

/-- A store holding `exRecord` under id `job-1`. -/
def exStore : JobStore :=
  fun k => if k = "job-1" then some exRecord else none

/-- A sub-sector stock list with one unranked (rank 0) stock that has no
analysis and five ranked stocks; all ranked analyses other than `a1` are
already completed. -/
def cexStocks : List StockRec :=
  [ { id := "s0", rank := 0, deepAnalysis := none },
    { id := "s1", rank := 1, deepAnalysis := some { id := "a1", status := .analyzing } },
    { id := "s2", rank := 2, deepAnalysis := some { id := "a2", status := .completed } },
    { id := "s3", rank := 3, deepAnalysis := some { id := "a3", status := .completed } },
    { id := "s4", rank := 4, deepAnalysis := some { id := "a4", status := .completed } },
    { id := "s5", rank := 5, deepAnalysis := some { id := "a5", status := .completed } } ]

/-- The sub-sector owning `cexStocks`. -/
def cexSub : SubSectorRec :=
  { id := "sub-1", name := "Semiconductors", status := .analyzing, stocks := cexStocks }

/-- The payload of an original first-attempt stock-analysis job. -/
def origAnalysisJob : StockAnalysisJobData :=
  { stockId := "stock-7", stockAnalysisId := "sa-7", companyName := "Apple Inc.",
    ticker := some "AAPL", subSectorName := "Consumer Electronics", attemptNumber := 1 }

/-- A first-attempt judge-review job payload. -/
def exJudgeJob : JudgeReviewJobData :=
  { stockAnalysisId := "sa-7", stockId := "stock-7", rawAnalysis := "raw",
    companyName := "Apple Inc.", attemptNumber := 1 }

/-- The retry job the judge worker enqueues for `exJudgeJob` on
rejection. -/
def exRetryJob : AnalysisJobAdd :=
  { jobId := "stock-sa-7-attempt-2", delay := some 5000, priority := none,
    data :=
      { stockId := "stock-7", stockAnalysisId := "sa-7", companyName := "Apple Inc.",
        ticker := some "Apple Inc.", subSectorName := "Unknown", attemptNumber := 2 } }

/-- An empty `lastJobStates` map (fresh subscriber). -/
def emptyStates : StateMap := fun _ => none

/-- A sample polled row in terminal `completed` state. -/
def exRow : JobRow :=
  { jobId := "job-9", jobType := "judge_review", relatedId := "sa-7",
    status := .completed, progress := 100, errorMessage := none }

/-- A wrapped function that fails with a retryable network error on
attempt 1 and with a non-retryable auth error on every later attempt. -/
def exFailFn : Nat → Except String Nat := fun i =>
  if i = 1 then .error "timeout" else .error "401 unauthorized"

end StockApp

namespace StockApp

/-! ## C5: the error classifier -/

/-- C5: for every input failure, `classifyError` returns the
classification of the spec table: the retryability and delay attached to
each kind match the table, each listed textual signal forces its kind,
the checks apply in order (rate-limit, then validation, then auth, then
network, then judge-rejection), and an unmatched message is `UNKNOWN` —
in particular the rate-limit and validation checks take precedence over
the generic network check. -/
theorem classifyError_matches_spec_table : ∀ msg : String,
    ((classifyError msg).retryable, (classifyError msg).retryDelay)
        = specPolicy (classifyError msg).type
    ∧ (rateLimitSignal (strToLower msg) = true → (classifyError msg).type = .RATE_LIMIT)
    ∧ (validationSignal (strToLower msg) = true → rateLimitSignal (strToLower msg) = false →
        (classifyError msg).type = .VALIDATION_ERROR)
    ∧ (apiSignal (strToLower msg) = true → rateLimitSignal (strToLower msg) = false →
        validationSignal (strToLower msg) = false → (classifyError msg).type = .API_ERROR)
    ∧ (networkSignal (strToLower msg) = true → rateLimitSignal (strToLower msg) = false →
        validationSignal (strToLower msg) = false → apiSignal (strToLower msg) = false →
        (classifyError msg).type = .NETWORK_ERROR)
    ∧ (judgeSignal (strToLower msg) = true → rateLimitSignal (strToLower msg) = false →
        validationSignal (strToLower msg) = false → apiSignal (strToLower msg) = false →
        networkSignal (strToLower msg) = false → (classifyError msg).type = .JUDGE_REJECTION)
    ∧ (rateLimitSignal (strToLower msg) = false → validationSignal (strToLower msg) = false →
        apiSignal (strToLower msg) = false → networkSignal (strToLower msg) = false →
        judgeSignal (strToLower msg) = false → (classifyError msg).type = .UNKNOWN) := by
  intro msg
  unfold classifyError
  cases hr : rateLimitSignal (strToLower msg) <;>
    cases hv : validationSignal (strToLower msg) <;>
      cases ha : apiSignal (strToLower msg) <;>
        cases hn : networkSignal (strToLower msg) <;>
          cases hj : judgeSignal (strToLower msg) <;>
            simp [hr, hv, ha, hn, hj, specPolicy]

/-- Witness for C5: a message matching both the rate-limit and the
network patterns is classified `RATE_LIMIT`. -/
theorem classifyError_matches_spec_table_witness :
    (classifyError "Rate limit hit: request timeout").type = ErrorType.RATE_LIMIT :=
  (classifyError_matches_spec_table "Rate limit hit: request timeout").2.1 (by decide)

/-! ## C6: the retry wrapper -/

/-- Helper: the `withRetry` loop invokes the wrapped function at most
once per remaining iteration. -/
theorem withRetryFrom_calls_le {α : Type} (fn : Nat → Except String α) (m : Nat) :
    ∀ (r a : Nat), (withRetryFrom fn m r a).2 ≤ r := by
  intro r
  induction r with
  | zero => intro a; simp [withRetryFrom]
  | succ k ih =>
    intro a
    simp only [withRetryFrom]
    cases h : fn a with
    | ok v => simp
    | error e =>
      by_cases hs : shouldRetry (classifyError e) a m = true
      · simpa [hs] using Nat.succ_le_succ (ih (a + 1))
      · simp [hs]

/-- Helper: when the loop reaches attempt `k` (every earlier attempt
failed retryably) and attempt `k` fails with a non-retryable
classification, the loop stops at once with that error, having invoked
the function once per attempt reached. -/
theorem withRetryFrom_failfast {α : Type} (fn : Nat → Except String α) (m k : Nat) (e : String)
    (hkm : k ≤ m) (hfk : fn k = .error e) (hnr : (classifyError e).retryable = false) :
    ∀ (r a : Nat), a + r = m + 1 → 1 ≤ a → a ≤ k →
      (∀ i, a ≤ i → i < k → ∃ ei, fn i = .error ei ∧ (classifyError ei).retryable = true) →
      withRetryFrom fn m r a = (.error e, k - a + 1) := by
  intro r
  induction r with
  | zero =>
    intro a ha h1 hak _
    exfalso
    omega
  | succ r ih =>
    intro a ha h1 hak hprev
    by_cases hek : a = k
    · subst hek
      have hs : shouldRetry (classifyError e) a m = false := by
        simp [shouldRetry, hnr]
      simp [withRetryFrom, hfk, hs]
    · have hlt : a < k := lt_of_le_of_ne hak hek
      obtain ⟨ea, hfa, hra⟩ := hprev a (le_refl a) hlt
      have hs : shouldRetry (classifyError ea) a m = true := by
        simp [shouldRetry, hra]
        omega
      have hrec := ih (a + 1) (by omega) (by omega) (by omega)
        (fun i hi1 hi2 => hprev i (by omega) hi2)
      simp only [withRetryFrom, hfa, hs, if_true]
      rw [hrec]
      have harith : k - (a + 1) + 1 + 1 = k - a + 1 := by omega
      simp [harith]

/-- C6: the retry wrapper never invokes the wrapped function more than
`maxAttempts` times; a non-retryable classification is never retried —
whenever execution reaches an attempt `k` that fails with a
non-retryable classification, the wrapped function is not invoked again
(exactly `k` invocations in total) and that error surfaces immediately;
and the retry-admission function denies retry whenever
`attempt ≥ maxAttempts`, even for a retryable error. -/
theorem withRetry_bounds :
    (∀ (α : Type) (fn : Nat → Except String α) (m : Nat), (withRetry fn m).2 ≤ m)
    ∧ (∀ (α : Type) (fn : Nat → Except String α) (m k : Nat) (e : String),
        1 ≤ k → k ≤ m →
        (∀ i, 1 ≤ i → i < k → ∃ ei, fn i = .error ei ∧ (classifyError ei).retryable = true) →
        fn k = .error e → (classifyError e).retryable = false →
        withRetry fn m = (.error e, k))
    ∧ (∀ (e : JobError) (a m : Nat), m ≤ a → shouldRetry e a m = false) := by
  refine ⟨?_, ?_, ?_⟩
  · intro α fn m
    exact withRetryFrom_calls_le fn m m 1
  · intro α fn m k e hk1 hkm hprev hfk hnr
    have h := withRetryFrom_failfast fn m k e hkm hfk hnr m 1 (by omega) (by omega) hk1
      (fun i hi1 hi2 => hprev i hi1 hi2)
    have harith : k - 1 + 1 = k := by omega
    rw [withRetry, h, harith]
  · intro e a m hm
    cases hr : e.retryable <;> simp [shouldRetry, hr]
    omega

/-- Witness for C6: attempt 1 fails with a retryable network error,
attempt 2 with non-retryable `401 unauthorized`; `withRetry` with 3
attempts surfaces the auth error after exactly two invocations. -/
theorem withRetry_bounds_witness :
    withRetry exFailFn 3 = (.error "401 unauthorized", 2) :=
  withRetry_bounds.2.1 Nat exFailFn 3 2 "401 unauthorized" (by decide) (by decide)
    (fun i hi1 hi2 => by
      have hi : i = 1 := by omega
      subst hi
      exact ⟨"timeout", rfl, by decide⟩)
    rfl (by decide)

/-! ## C7: the backoff computation -/

/-- Counterexample to C7 as stated: for an error that carries its own
`retryDelay` (here a rate-limit failure, delay 60000), the computation
does not return `baseDelay * 2 ^ (attempt - 1)`: with `baseDelay = 5000`
and `attempt = 3` it returns 240000, not 20000. -/
theorem calculateRetryDelay_base_cex :
    ¬ (calculateRetryDelay (classifyError "429") 3 5000 = 5000 * 2 ^ (3 - 1)) := by
  decide

/-- C7 (amended): the backoff computation returns
`initial * 2 ^ (attempt - 1)` where `initial` is the error's own
`retryDelay` when present and nonzero and the `baseDelay` argument
otherwise; in particular, for an error with no specific delay,
`baseDelay = 5000` and `attempt = 3` give exactly 20000. -/
theorem calculateRetryDelay_backoff :
    (∀ (e : JobError) (a b : Nat), e.retryDelay = none →
        calculateRetryDelay e a b = b * 2 ^ (a - 1))
    ∧ (∀ (e : JobError) (a b d : Nat), e.retryDelay = some d → d ≠ 0 →
        calculateRetryDelay e a b = d * 2 ^ (a - 1))
    ∧ (∀ (e : JobError) (a b : Nat), e.retryDelay = some 0 →
        calculateRetryDelay e a b = b * 2 ^ (a - 1))
    ∧ calculateRetryDelay plainUnknownError 3 5000 = 20000 := by
  refine ⟨?_, ?_, ?_, by decide⟩
  · intro e a b h; simp [calculateRetryDelay, h]
  · intro e a b d h hd; simp [calculateRetryDelay, h, hd]
  · intro e a b h; simp [calculateRetryDelay, h]

/-- Witness for C7 (amended): a network error (own delay 10000) at
attempt 2 backs off 20000. -/
theorem calculateRetryDelay_backoff_witness :
    calculateRetryDelay (classifyError "timeout") 2 5000 = 10000 * 2 ^ (2 - 1) :=
  calculateRetryDelay_backoff.2.1 (classifyError "timeout") 2 5000 10000
    (by decide) (by decide)

/-! ## C8: the job status tracker operations -/

/-- C8: `updateJobProgress` stores the input clamped to `[0, 100]`
(150 is stored as 100, -10 as 0) and leaves every other field of the
row — in particular `status` — unchanged; `markJobCompleted` sets
`status = completed` and `progress = 100`; `markJobFailed` sets
`status = failed` and stores the message. -/
theorem jobStatus_tracker_ops :
    ∀ (s : JobStore) (jobId : String) (p : Int) (r : JobRecord),
      s jobId = some r →
      (updateJobProgress s jobId p) jobId = some { r with progress := min 100 (max 0 p) }
      ∧ min 100 (max 0 (150 : Int)) = 100
      ∧ min 100 (max 0 (-10 : Int)) = 0
      ∧ (markJobCompleted s jobId) jobId
          = some { r with status := .completed, progress := 100 }
      ∧ (∀ msg, (markJobFailed s jobId msg) jobId
          = some { r with status := .failed, errorMessage := some msg }) := by
  intro s jobId p r h
  refine ⟨?_, by decide, by decide, ?_, ?_⟩
  · simp [updateJobProgress, updateJobStatus, applyJobUpdate, h]
  · simp [markJobCompleted, updateJobStatus, applyJobUpdate, h]
  · intro msg; simp [markJobFailed, updateJobStatus, applyJobUpdate, h]

/-- Witness for C8: updating progress of the sample row to 150 stores
the clamp of 150 and keeps the `active` status. -/
theorem jobStatus_tracker_ops_witness :
    (updateJobProgress exStore "job-1" 150) "job-1"
      = some { exRecord with progress := min 100 (max 0 (150 : Int)) } :=
  (jobStatus_tracker_ops exStore "job-1" 150 exRecord (by decide)).1

/-! ## C1: the judge-review branching -/

/-- C1: on every judge-review job the worker takes exactly one of three
branches — approved: exactly one format-insights job is enqueued and the
StockAnalysis status is untouched; rejected below the ceiling (3):
exactly one new stock-analysis job for the same stock and analysis id
with `attemptNumber + 1`, a 5000 ms delay and the deterministic job id
`stock-<analysisId>-attempt-<n+1>`; rejected at or above the ceiling: the
StockAnalysis is set `review_failed` with a reason citing the exhausted
retries — and in all branches the judge job's own JobStatus ends
`completed`. -/
theorem judgeReview_branches :
    ∀ (d : JudgeReviewJobData) (approved : Bool),
      (processJudgeReview d approved).ownJobStatus = .completed
      ∧ (approved = true →
          (processJudgeReview d approved).formatJobs.length = 1
          ∧ (processJudgeReview d approved).retryJobs = []
          ∧ (processJudgeReview d approved).saStatusSet = none)
      ∧ (approved = false → d.attemptNumber < MAX_RETRY_ATTEMPTS →
          (processJudgeReview d approved).formatJobs = []
          ∧ (processJudgeReview d approved).saStatusSet = none
          ∧ (processJudgeReview d approved).retryJobs.length = 1
          ∧ (∀ j ∈ (processJudgeReview d approved).retryJobs,
              j.data.stockId = d.stockId
              ∧ j.data.stockAnalysisId = d.stockAnalysisId
              ∧ j.data.attemptNumber = d.attemptNumber + 1
              ∧ j.delay = some 5000
              ∧ j.jobId = "stock-" ++ d.stockAnalysisId ++ "-attempt-"
                  ++ toString (d.attemptNumber + 1)))
      ∧ (approved = false → MAX_RETRY_ATTEMPTS ≤ d.attemptNumber →
          (processJudgeReview d approved).formatJobs = []
          ∧ (processJudgeReview d approved).retryJobs = []
          ∧ (processJudgeReview d approved).saStatusSet
              = some (.review_failed,
                  "Judge rejected after " ++ toString MAX_RETRY_ATTEMPTS ++ " attempts: "
                    ++ mockJudgeReview false d.companyName)) := by
  intro d approved
  cases approved with
  | true => simp [processJudgeReview]
  | false =>
    by_cases h : d.attemptNumber < MAX_RETRY_ATTEMPTS
    · refine ⟨by simp [processJudgeReview, h], by simp, ?_, by omega⟩
      intro _ _
      refine ⟨by simp [processJudgeReview, h], by simp [processJudgeReview, h],
        by simp [processJudgeReview, h], ?_⟩
      intro j hj
      simp [processJudgeReview, h] at hj
      subst hj
      exact ⟨rfl, rfl, rfl, rfl, rfl⟩
    · refine ⟨by simp [processJudgeReview, h], by simp, by omega, ?_⟩
      intro _ _
      exact ⟨by simp [processJudgeReview, h], by simp [processJudgeReview, h],
        by simp [processJudgeReview, h]⟩

/-- Witness for C1: the rejected first attempt of `exJudgeJob` enqueues
exactly one retry job. -/
theorem judgeReview_branches_witness :
    (processJudgeReview exJudgeJob false).retryJobs.length = 1 :=
  ((judgeReview_branches exJudgeJob false).2.2.1 rfl (by decide)).2.2.1

/-! ## C4: the retry payload (latent bug) -/

/-- C4: the retry stock-analysis job enqueued after a judge rejection
does NOT carry the original ticker and sub-sector name: for the original
job with ticker `AAPL` and sub-sector `Consumer Electronics`, the retry
payload carries the company name as ticker and the literal `Unknown` as
sub-sector name (judgeReviewWorker.ts lines 105-106, marked TODO in the
source). -/
theorem retry_payload_not_threaded :
    (processJudgeReview (processStockAnalysis origAnalysisJob).judgeJob.data false).retryJobs.map
        (fun j => (j.data.ticker, j.data.subSectorName))
      = [(some "Apple Inc.", "Unknown")]
    ∧ origAnalysisJob.ticker = some "AAPL"
    ∧ origAnalysisJob.subSectorName = "Consumer Electronics" := by
  decide

/-! ## C10: deterministic job ids -/

/-- C10: every downstream job enqueued inside the pipeline carries a job
id that is a function of the stage, the StockAnalysis id and the attempt
number only: the ranking worker enqueues analysis jobs as
`stock-<analysisId>-attempt-1`, the analysis worker enqueues the judge
job as `judge-<analysisId>-<n>`, the judge worker enqueues the retry as
`stock-<analysisId>-attempt-<n+1>` and the format job as
`format-<analysisId>`. -/
theorem deterministic_job_ids :
    (∀ (d : StockRankingJobData) (ids : List String) (name : Option String),
      ∀ j ∈ (processStockRanking d ids name).analysisJobs,
        j.jobId = "stock-" ++ j.data.stockAnalysisId ++ "-attempt-1"
        ∧ j.data.attemptNumber = 1)
    ∧ (∀ d : StockAnalysisJobData,
        (processStockAnalysis d).judgeJob.jobId
          = "judge-" ++ d.stockAnalysisId ++ "-" ++ toString d.attemptNumber
        ∧ (processStockAnalysis d).judgeJob.data.attemptNumber = d.attemptNumber)
    ∧ (∀ (d : JudgeReviewJobData) (approved : Bool),
        (∀ j ∈ (processJudgeReview d approved).retryJobs,
          j.jobId = "stock-" ++ d.stockAnalysisId ++ "-attempt-" ++ toString (d.attemptNumber + 1)
          ∧ j.data.stockAnalysisId = d.stockAnalysisId
          ∧ j.data.attemptNumber = d.attemptNumber + 1)
        ∧ (∀ f ∈ (processJudgeReview d approved).formatJobs,
          f.jobId = "format-" ++ d.stockAnalysisId
          ∧ f.data.stockAnalysisId = d.stockAnalysisId)) := by
  refine ⟨?_, ?_, ?_⟩
  · intro d ids name j hj
    simp only [processStockRanking, List.mem_map] at hj
    obtain ⟨p, hp, rfl⟩ := hj
    exact ⟨rfl, rfl⟩
  · intro d
    exact ⟨rfl, rfl⟩
  · intro d approved
    constructor
    · intro j hj
      cases approved with
      | true => simp [processJudgeReview] at hj
      | false =>
        by_cases h : d.attemptNumber < MAX_RETRY_ATTEMPTS
        · simp [processJudgeReview, h] at hj
          subst hj
          exact ⟨rfl, rfl, rfl⟩
        · simp [processJudgeReview, h] at hj
    · intro f hf
      cases approved with
      | true =>
        simp [processJudgeReview] at hf
        subst hf
        exact ⟨rfl, rfl⟩
      | false =>
        by_cases h : d.attemptNumber < MAX_RETRY_ATTEMPTS <;>
          simp [processJudgeReview, h] at hf

/-- Witness for C10: the concrete retry job of a rejected first attempt
carries the deterministic id for attempt 2. -/
theorem deterministic_job_ids_witness :
    exRetryJob.jobId = "stock-" ++ exJudgeJob.stockAnalysisId ++ "-attempt-"
      ++ toString (exJudgeJob.attemptNumber + 1) :=
  ((deterministic_job_ids.2.2 exJudgeJob false).1 exRetryJob (by decide)).1

/-! ## C2: the sub-sector completion cascade -/

/-- Counterexample to C2 as stated: on `cexSub` — five ranked stocks
whose analyses are all completed once the target `a1` is marked, plus one
unranked (rank 0) stock without an analysis — the spec-side top-5
condition holds but the worker does not mark the sub-sector completed,
because its filter `rank <= 5` also includes the rank-0 stock. -/
theorem format_cascade_cex :
    ¬ (((processFormatInsights cexSub "a1").2 = true) ↔
        specTopFiveCompleted (setAnalysisCompleted cexSub.stocks "a1") = true) := by
  decide

/-- C2 (amended): the format-insights worker marks a SubSector completed
exactly when every one of the sub-sector's stocks with rank ≤ 5 — a set
that also contains unranked (rank 0) stocks, and omits ranked stocks with
rank > 5 even when fewer than five stocks have rank ≥ 1 — has a
StockAnalysis with status completed (after the target analysis is marked
completed); hence a sub-sector this worker marks completed has a
completed StockAnalysis on each of its rank ≤ 5 stocks. -/
theorem format_cascade_amended :
    ∀ (sub : SubSectorRec) (targetId : String),
      ((processFormatInsights sub targetId).2 = true ↔
        (∀ s ∈ setAnalysisCompleted sub.stocks targetId,
          s.rank ≤ 5 → analysisCompleted s = true))
      ∧ ((processFormatInsights sub targetId).1.status = .completed →
          sub.status = .completed
          ∨ (∀ s ∈ setAnalysisCompleted sub.stocks targetId,
              s.rank ≤ 5 → analysisCompleted s = true)) := by
  intro sub targetId
  have h1 : (processFormatInsights sub targetId).2 = true ↔
      (∀ s ∈ setAnalysisCompleted sub.stocks targetId,
        s.rank ≤ 5 → analysisCompleted s = true) := by
    show cascadeAllCompleted (setAnalysisCompleted sub.stocks targetId) = true ↔ _
    simp only [cascadeAllCompleted, List.all_eq_true, List.mem_filter, decide_eq_true_eq,
      and_imp]
  refine ⟨h1, ?_⟩
  by_cases hm : cascadeAllCompleted (setAnalysisCompleted sub.stocks targetId) = true
  · intro _
    exact Or.inr (h1.mp hm)
  · intro hs
    refine Or.inl ?_
    have : (processFormatInsights sub targetId).1.status = sub.status := by
      show (if cascadeAllCompleted (setAnalysisCompleted sub.stocks targetId)
              then SubStatus.completed else sub.status) = sub.status
      simp [hm]
    rwa [this] at hs

/-- Witness for C2 (amended): marking `a1` completed on a sub-sector
whose only stocks are the five ranked ones completes it. -/
theorem format_cascade_amended_witness :
    (processFormatInsights
        { cexSub with stocks := cexSub.stocks.tail } "a1").2 = true :=
  (format_cascade_amended { cexSub with stocks := cexSub.stocks.tail } "a1").1.mpr
    (by decide)

/-! ## C3: the attempt-count invariant -/

/-- Helper: `PipeInv` holds in every reachable pipeline state. -/
theorem reachable_pipeInv : ∀ st, Reachable st → PipeInv st := by
  intro st h
  induction h with
  | init =>
    refine ⟨by decide, by decide, ?_, ?_, by decide, by decide⟩
    · intro n hn
      simp [initState] at hn
      omega
    · intro n hn
      simp [initState] at hn
  | step hr hstep ih =>
    rename_i s t
    obtain ⟨ha3, ha1, hpa, hpj, hfv, hex⟩ := ih
    cases hstep with
    | analysisRun d hd =>
      obtain ⟨hn1, hn3⟩ := hpa d.attemptNumber hd
      refine ⟨?_, ?_, ?_, ?_, ?_, ?_⟩
      · simpa [applyAnalysisEffects, processStockAnalysis] using hn3
      · simpa [applyAnalysisEffects, processStockAnalysis] using hn1
      · intro n hn
        simp [applyAnalysisEffects] at hn
      · intro n hn
        simp [applyAnalysisEffects, processStockAnalysis] at hn ⊢
        omega
      · intro hf
        simp [applyAnalysisEffects] at hf
        rcases hfv hf with ⟨_, hnone, _⟩
        rw [hd] at hnone
        simp at hnone
      · exact Or.inl (by simp [applyAnalysisEffects])
    | analysisFailEarly n hd =>
      refine ⟨ha3, ha1, ?_, ?_, ?_, ?_⟩
      · intro k hk
        simp at hk
      · intro k hk
        simpa using hpj k (by simpa using hk)
      · intro hf
        simp at hf
        rcases hfv hf with ⟨_, hnone, _⟩
        rw [hd] at hnone
        simp at hnone
      · exact Or.inl rfl
    | analysisFailLate n hd =>
      obtain ⟨hn1, hn3⟩ := hpa n hd
      have hjnone : s.pendingJudge = none := by
        rcases hex with hA | hJ
        · rw [hd] at hA
          simp at hA
        · exact hJ
      refine ⟨by simpa using hn3, by simpa using hn1, ?_, ?_, ?_, ?_⟩
      · intro k hk
        simp at hk
      · intro k hk
        simp at hk
        rw [hjnone] at hk
        simp at hk
      · intro hf
        simp at hf
        rcases hfv hf with ⟨_, hnone, _⟩
        rw [hd] at hnone
        simp at hnone
      · exact Or.inl rfl
    | judgeRun d approved hd =>
      have heq : d.attemptNumber = s.attemptCount := hpj d.attemptNumber hd
      have hfv1 : s.failedViaJudge = false := by
        cases hfvc : s.failedViaJudge
        · rfl
        · rcases hfv hfvc with ⟨_, _, hnone⟩
          rw [hd] at hnone
          simp at hnone
      cases approved with
      | true =>
        refine ⟨by simpa [applyJudgeEffects] using ha3,
          by simpa [applyJudgeEffects] using ha1, ?_, ?_, ?_, ?_⟩
        · intro n hn
          simp [applyJudgeEffects, processJudgeReview] at hn
        · intro n hn
          simp [applyJudgeEffects] at hn
        · intro hf
          simp [applyJudgeEffects, processJudgeReview, hfv1] at hf
        · exact Or.inr (by simp [applyJudgeEffects])
      | false =>
        by_cases hlt : d.attemptNumber < MAX_RETRY_ATTEMPTS
        · refine ⟨by simpa [applyJudgeEffects] using ha3,
            by simpa [applyJudgeEffects] using ha1, ?_, ?_, ?_, ?_⟩
          · intro n hn
            simp [applyJudgeEffects, processJudgeReview, hlt] at hn
            simp [MAX_RETRY_ATTEMPTS] at hlt
            omega
          · intro n hn
            simp [applyJudgeEffects] at hn
          · intro hf
            simp [applyJudgeEffects, processJudgeReview, hlt, hfv1] at hf
          · exact Or.inr (by simp [applyJudgeEffects])
        · have h3 : s.attemptCount = 3 := by
            simp [MAX_RETRY_ATTEMPTS] at hlt
            omega
          refine ⟨by simpa [applyJudgeEffects] using ha3,
            by simpa [applyJudgeEffects] using ha1, ?_, ?_, ?_, ?_⟩
          · intro n hn
            simp [applyJudgeEffects, processJudgeReview, hlt] at hn
          · intro n hn
            simp [applyJudgeEffects] at hn
          · intro _
            refine ⟨by simpa [applyJudgeEffects] using h3, ?_, ?_⟩
            · simp [applyJudgeEffects, processJudgeReview, hlt]
            · simp [applyJudgeEffects]
          · exact Or.inr (by simp [applyJudgeEffects])
    | formatRun hf1 =>
      refine ⟨ha3, ha1, ?_, ?_, ?_, ?_⟩
      · intro k hk
        exact hpa k (by simpa using hk)
      · intro k hk
        simpa using hpj k (by simpa using hk)
      · intro hf
        simp at hf
        rcases hfv hf with ⟨h1, h2, h3⟩
        exact ⟨by simpa using h1, by simpa using h2, by simpa using h3⟩
      · rcases hex with hA | hJ
        · exact Or.inl (by simpa using hA)
        · exact Or.inr (by simpa using hJ)
    | formatFail hf1 =>
      refine ⟨ha3, ha1, ?_, ?_, ?_, ?_⟩
      · intro k hk
        exact hpa k (by simpa using hk)
      · intro k hk
        simpa using hpj k (by simpa using hk)
      · intro hf
        simp at hf
        rcases hfv hf with ⟨h1, h2, h3⟩
        exact ⟨by simpa using h1, by simpa using h2, by simpa using h3⟩
      · rcases hex with hA | hJ
        · exact Or.inl (by simpa using hA)
        · exact Or.inr (by simpa using hJ)

/-- C3: in every reachable state of a StockAnalysis pipeline the attempt
counter never exceeds 3, and when the record has been driven to
`review_failed` by the judge's max-retries branch the counter is
exactly 3. -/
theorem attemptCount_bounded :
    ∀ st, Reachable st →
      st.attemptCount ≤ 3 ∧ (st.failedViaJudge = true → st.attemptCount = 3) := by
  intro st h
  have hinv := reachable_pipeInv st h
  exact ⟨hinv.1, fun hf => (hinv.2.2.2.2.1 hf).1⟩

/-- Witness for C3: the creation state is reachable and satisfies the
bound. -/
theorem attemptCount_bounded_witness : initState.attemptCount ≤ 3 :=
  (attemptCount_bounded initState Reachable.init).1

/-! ## C9: the update stream publisher -/

/-- Helper: every event in `rowEvents row` is about `row.jobId`. -/
theorem rowEvents_jobId (row : JobRow) : ∀ ev ∈ rowEvents row, eventJobId ev = row.jobId := by
  intro ev hev
  unfold rowEvents at hev
  rcases List.mem_append.mp hev with h | h
  · rcases List.mem_append.mp h with h1 | h1
    · rw [List.mem_singleton] at h1
      subst h1
      rfl
    · split at h1
      · rw [List.mem_singleton] at h1
        subst h1
        rfl
      · simp at h1
  · split at h
    · rw [List.mem_singleton] at h
      subst h
      rfl
    · simp at h

/-- Helper: `processRow` rewrites the state only at the row's job id. -/
theorem processRow_state (m : StateMap) (row : JobRow) :
    ∀ k, (processRow m row).2 k = if k = row.jobId then some (pairOf row) else m k := by
  intro k
  unfold processRow
  by_cases h : m row.jobId = some (pairOf row)
  · by_cases hk : k = row.jobId
    · simp [h, hk]
    · simp [h, hk]
  · simp [h]

/-- Helper: a poll leaves untracked job ids untouched. -/
theorem pollStep_state_untouched : ∀ (rows : List JobRow) (m : StateMap) (k : String),
    k ∉ rows.map JobRow.jobId → (pollStep m rows).2 k = m k := by
  intro rows
  induction rows with
  | nil => intro m k _; rfl
  | cons row rest ih =>
    intro m k hk
    simp only [List.map_cons, List.mem_cons, not_or] at hk
    show (pollStep (processRow m row).2 rest).2 k = m k
    rw [ih _ k hk.2, processRow_state]
    simp [hk.1]

/-- Helper: after a poll, each polled row's stored pair is its observed
pair (distinct job ids). -/
theorem pollStep_state_mem : ∀ (rows : List JobRow) (m : StateMap) (row : JobRow),
    row ∈ rows → (rows.map JobRow.jobId).Nodup →
    (pollStep m rows).2 row.jobId = some (pairOf row) := by
  intro rows
  induction rows with
  | nil => intro m row h _; simp at h
  | cons hd rest ih =>
    intro m row hmem hnd
    simp only [List.map_cons, List.nodup_cons] at hnd
    rcases List.mem_cons.mp hmem with rfl | hmem
    · show (pollStep (processRow m row).2 rest).2 row.jobId = some (pairOf row)
      rw [pollStep_state_untouched rest _ _ hnd.1, processRow_state]
      simp
    · exact ih _ row hmem hnd.2

/-- Helper: a poll whose every row is already recorded emits nothing and
keeps the state. -/
theorem pollStep_no_change : ∀ (rows : List JobRow) (m : StateMap),
    (∀ row ∈ rows, m row.jobId = some (pairOf row)) → pollStep m rows = ([], m) := by
  intro rows
  induction rows with
  | nil => intro m _; rfl
  | cons hd rest ih =>
    intro m hall
    have h1 : processRow m hd = ([], m) := by
      unfold processRow
      simp [hall hd (by simp)]
    show ((processRow m hd).1 ++ (pollStep (processRow m hd).2 rest).1,
        (pollStep (processRow m hd).2 rest).2) = ([], m)
    rw [h1]
    have h2 : pollStep m rest = ([], m) := ih m (fun r hr => hall r (by simp [hr]))
    simp [h2]

/-- Helper: every emitted event is about a polled job id. -/
theorem pollStep_event_ids : ∀ (rows : List JobRow) (m : StateMap) (ev : SseEvent),
    ev ∈ (pollStep m rows).1 → eventJobId ev ∈ rows.map JobRow.jobId := by
  intro rows
  induction rows with
  | nil => intro m ev h; simp [pollStep] at h
  | cons hd rest ih =>
    intro m ev hev
    have hev2 : ev ∈ (processRow m hd).1 ++ (pollStep (processRow m hd).2 rest).1 := hev
    rcases List.mem_append.mp hev2 with h | h
    · have hsub : ev ∈ rowEvents hd := by
        unfold processRow at h
        by_cases hch : m hd.jobId = some (pairOf hd)
        · simp [hch] at h
        · simpa [hch] using h
      simp [rowEvents_jobId hd ev hsub]
    · simp [ih _ ev h]

/-- Helper: an event about a polled row is emitted exactly when the
row's pair differs from the stored one and the event is one of the row's
events. -/
theorem pollStep_mem_iff : ∀ (rows : List JobRow) (m : StateMap),
    (rows.map JobRow.jobId).Nodup →
    ∀ row ∈ rows, ∀ ev, eventJobId ev = row.jobId →
      (ev ∈ (pollStep m rows).1 ↔
        (¬ m row.jobId = some (pairOf row) ∧ ev ∈ rowEvents row)) := by
  intro rows
  induction rows with
  | nil => intro m _ row h; simp at h
  | cons hd rest ih =>
    intro m hnd row hrow ev hev
    simp only [List.map_cons, List.nodup_cons] at hnd
    have hsplit : ev ∈ (pollStep m (hd :: rest)).1 ↔
        ev ∈ (processRow m hd).1 ∨ ev ∈ (pollStep (processRow m hd).2 rest).1 :=
      List.mem_append
    rcases List.mem_cons.mp hrow with rfl | hmem
    · rw [hsplit]
      constructor
      · rintro (h | h)
        · unfold processRow at h
          by_cases hch : m row.jobId = some (pairOf row)
          · simp [hch] at h
          · simp only [hch, if_false] at h
            exact ⟨hch, by simpa using h⟩
        · exfalso
          have := pollStep_event_ids rest _ ev h
          rw [hev] at this
          exact hnd.1 this
      · rintro ⟨hch, hmemEv⟩
        refine Or.inl ?_
        unfold processRow
        simp only [hch, if_false]
        simpa using hmemEv
    · have hne : row.jobId ≠ hd.jobId := by
        intro hEq
        exact hnd.1 (hEq ▸ List.mem_map.mpr ⟨row, hmem, rfl⟩)
      have hm2 : (processRow m hd).2 row.jobId = m row.jobId := by
        rw [processRow_state]
        simp [hne]
      rw [hsplit]
      constructor
      · rintro (h | h)
        · exfalso
          have hsub : ev ∈ rowEvents hd := by
            unfold processRow at h
            by_cases hch : m hd.jobId = some (pairOf hd)
            · simp [hch] at h
            · simpa [hch] using h
          have := rowEvents_jobId hd ev hsub
          rw [hev] at this
          exact hne this
        · have := (ih _ hnd.2 row hmem ev hev).mp h
          rwa [hm2] at this
      · rintro ⟨hch, hmemEv⟩
        refine Or.inr ?_
        exact (ih _ hnd.2 row hmem ev hev).mpr ⟨by rwa [hm2], hmemEv⟩

/-- C9: on each poll over rows with distinct job ids, a `progress` event
for a tracked job is emitted exactly when the job's (status, progress)
pair differs from the last pair sent for that job id; a terminal
`complete` (resp. `error`) event is emitted exactly when additionally the
observed status is `completed` (resp. `failed`); and an immediately
repeated poll observing identical state emits no events at all. -/
theorem stream_emits_on_change :
    ∀ (m : StateMap) (rows : List JobRow), (rows.map JobRow.jobId).Nodup →
      (∀ row ∈ rows,
        ((SseEvent.progress row.jobType row.jobId row.relatedId row.status
              row.progress row.errorMessage ∈ (pollStep m rows).1)
          ↔ ¬ m row.jobId = some (pairOf row))
        ∧ ((SseEvent.complete row.jobType row.jobId row.relatedId row.status
              ∈ (pollStep m rows).1)
          ↔ (¬ m row.jobId = some (pairOf row) ∧ row.status = .completed))
        ∧ ((SseEvent.error row.jobType row.jobId row.relatedId row.status
              row.errorMessage ∈ (pollStep m rows).1)
          ↔ (¬ m row.jobId = some (pairOf row) ∧ row.status = .failed)))
      ∧ (pollStep (pollStep m rows).2 rows).1 = [] := by
  intro m rows hnd
  constructor
  · intro row hrow
    refine ⟨?_, ?_, ?_⟩
    · rw [pollStep_mem_iff rows m hnd row hrow
        (SseEvent.progress row.jobType row.jobId row.relatedId row.status
          row.progress row.errorMessage) rfl]
      have hmem : SseEvent.progress row.jobType row.jobId row.relatedId row.status
          row.progress row.errorMessage ∈ rowEvents row := by
        unfold rowEvents
        simp
      simp [hmem]
    · rw [pollStep_mem_iff rows m hnd row hrow
        (SseEvent.complete row.jobType row.jobId row.relatedId row.status) rfl]
      have hmem : (SseEvent.complete row.jobType row.jobId row.relatedId row.status
          ∈ rowEvents row) ↔ row.status = .completed := by
        unfold rowEvents
        by_cases hc : row.status = JobStatusType.completed <;>
          by_cases hf : row.status = JobStatusType.failed <;>
            simp [hc, hf]
      rw [hmem]
    · rw [pollStep_mem_iff rows m hnd row hrow
        (SseEvent.error row.jobType row.jobId row.relatedId row.status
          row.errorMessage) rfl]
      have hmem : (SseEvent.error row.jobType row.jobId row.relatedId row.status
          row.errorMessage ∈ rowEvents row) ↔ row.status = .failed := by
        unfold rowEvents
        by_cases hc : row.status = JobStatusType.completed <;>
          by_cases hf : row.status = JobStatusType.failed <;>
            simp [hc, hf]
      rw [hmem]
  · have hall : ∀ row ∈ rows, (pollStep m rows).2 row.jobId = some (pairOf row) :=
      fun row hr => pollStep_state_mem rows m row hr hnd
    rw [pollStep_no_change rows _ hall]

/-- Witness for C9: polling a single completed row twice from a fresh
subscriber emits nothing on the second poll. -/
theorem stream_emits_on_change_witness :
    (pollStep (pollStep emptyStates [exRow]).2 [exRow]).1 = [] :=
  (stream_emits_on_change emptyStates [exRow] (by simp)).2

end StockApp
